import Mathlib

/-!
Verification of src/usda_sublayer_editor.py.

The Python module is a thin facade over the external scene-description
library (pxr.Sdf).  Following the spec's §6 capability surface, the external
document model is embedded as follows:

* a `Reference` is an entry of a prim's prepended-references list; the code
  only reads its `assetPath` and moves whole entries around, so we keep one
  extra opaque field (`primPath`) to show entries are moved wholesale;
* a `RefListOp` is a prim's reference-list operation; the code only touches
  its `prependedItems` sub-list;
* a `Layer` is the parsed document as the two editors see it through
  `GetPrimAtPath`: a finite association of prim paths to prim data (here the
  prim's optional reference-list operation — the only prim field these code
  paths read or write), plus the root-level `subLayerPaths`;
* a `LayerFile` is the pair of the on-disk document (`disk`) and the
  in-memory representation held by the cached layer handle (`mem`).
  Per §6, `Reload` re-synchronizes the in-memory representation with the
  file on disk (`mem := disk`) and `Save` writes the in-memory state back
  to the file (`disk := mem`).  This matches pxr's behaviour: a
  `Sdf.Layer.Reload()` on a dirty layer re-reads the file and discards
  unsaved in-memory edits;
* for the tree walk of `get_prim_paths_with_prepended_refs`, which accesses
  the document through `rootPrims` / `nameChildren` / `spec.path` instead of
  `GetPrimAtPath`, the prim tree is embedded directly as `PrimSpec`; the
  function only reads the freshly reloaded (= on-disk) tree, so it is
  defined on the layer's root prim list.

Exceptions: every failure in the Python code is a `RuntimeError` with a
distinguishing message; the spec names them `LayerOpenError`,
`PrimNotFoundError`, `NoReferencesError`, `UnknownReferenceError`.  They are
embedded as the constructors of `EditError`.  A raised exception leaves the
editor's (reloaded) state as it was at the raise point, so operations return
an `EditResult` carrying both the outcome and the resulting `LayerFile`.
The claims under verification all presuppose an openable file, so the
`FindOrOpen`-failure arm (`LayerOpenError`) never fires in the embedding.
-/

/-- One entry of a prim's prepended-references list (pxr `Sdf.Reference`).
The code reads only `assetPath`; `primPath` stands for the other fields it
carries along untouched. -/
structure Reference where
  assetPath : String
  primPath : String
deriving DecidableEq, Repr

/-- A prim's reference-list operation; the code touches only the
`prependedItems` sub-list. -/
structure RefListOp where
  prependedItems : List Reference
deriving DecidableEq, Repr

/-- The parsed document as the editors access it: prim path ↦ the prim's
optional reference-list operation (outer absence = no prim at that path),
plus the root layer's sublayer path list. -/
structure Layer where
  prims : List (String × Option RefListOp)
  subLayerPaths : List String
deriving DecidableEq, Repr

/-- Embedding of `layer.GetPrimAtPath(path)` followed by reading
`prim_spec.referenceList`: `none` = no prim at the path, `some none` = prim
present but no reference-list operation, `some (some op)` = prim present
with the operation. -/
def Layer.getPrimAtPath (l : Layer) (p : String) : Option (Option RefListOp) :=
  (l.prims.find? (fun e => e.1 == p)).map (fun e => e.2)

/-- Embedding of `ref_list_op.prependedItems = items` on the prim at path
`p`: the assignment writes through the proxy into the layer's data. -/
def Layer.setPrependedItems (l : Layer) (p : String) (items : List Reference) : Layer :=
  { l with
    prims := l.prims.map (fun e =>
      if e.1 == p then (e.1, e.2.map (fun op => { op with prependedItems := items })) else e) }

/-- On-disk document plus the in-memory representation of the cached handle. -/
structure LayerFile where
  disk : Layer
  mem : Layer
deriving DecidableEq, Repr

/-- Embedding of `Sdf.Layer.Reload()`: re-synchronize the in-memory
representation with the file on disk (discarding unsaved in-memory edits). -/
def reloadLayer (f : LayerFile) : LayerFile :=
  { f with mem := f.disk }

/-- Embedding of `Sdf.Layer.Save()`: write the in-memory state back to the
file. -/
def saveLayer (f : LayerFile) : LayerFile :=
  { f with disk := f.mem }

/-- The four failure messages the module can raise (spec §7 names). -/
inductive EditError where
  /-- Message: Could not open USD layer. -/
  | layerOpenError
  /-- Message: Could not find prim at path (carries the path). -/
  | primNotFoundError (path : String)
  /-- Message: Prim has no references to reorder. -/
  | noReferencesError
  /-- Message: No prepended references found on prim. -/
  | noPrependedRefsError
  /-- Message: Unknown reference path in new_order (carries the missing
  path; the Python message wraps it in the quotes of `str(KeyError)`). -/
  | unknownReferenceError (path : String)
deriving DecidableEq, Repr

/-- Discriminator: is this failure the `UnknownReferenceError` kind? -/
def EditError.isUnknownReference : EditError → Bool
  | .unknownReferenceError _ => true
  | _ => false

/-- Outcome of an operation together with the `LayerFile` state it leaves
behind (for a raised error, the state at the raise point). -/
inductive EditResult (α : Type) where
  | ok (val : α) (state : LayerFile)
  | error (e : EditError) (state : LayerFile)
deriving DecidableEq, Repr

/-- Embedding of Python `prim_path.startswith("/")`: the single-character
prefix test, i.e. the first character is `'/'`. -/
def startsWithSlash (s : String) : Bool :=
  s.data.head? == some '/'

/-- State of `UsdPrimRefEditor.__init__`: the file path and the prim path,
normalized to begin with a slash.  The lazily-opened `_layer` handle is the
`LayerFile` threaded through the operations below. -/
structure UsdPrimRefEditor where
  usda_path : String
  prim_path : String
deriving DecidableEq, Repr

/-- Constructor `UsdPrimRefEditor(usda_path, prim_path)`: stores
`prim_path if prim_path.startswith("/") else f"/{prim_path}"`. -/
def UsdPrimRefEditor.make (usda_path prim_path : String) : UsdPrimRefEditor :=
  { usda_path := usda_path
    prim_path := if startsWithSlash prim_path then prim_path else "/" ++ prim_path }

/-- Embedding of `UsdPrimRefEditor.load_primrefs`: reload the layer
(`_get_layer`), find the prim spec (`_get_prim_spec`), return `[]` if it has
no reference-list operation, else the asset paths of its prepended items in
order. -/
def load_primrefs (e : UsdPrimRefEditor) (f : LayerFile) : EditResult (List String) :=
  let f1 := reloadLayer f
  match f1.mem.getPrimAtPath e.prim_path with
  | none => .error (.primNotFoundError e.prim_path) f1
  | some none => .ok [] f1
  | some (some op) => .ok (op.prependedItems.map Reference.assetPath) f1

/-- The dict comprehension building `by_asset` followed by `by_asset[path]`:
with duplicate asset paths the later entry overwrites the earlier, so the
lookup returns the last matching entry. -/
def byAssetGet (refs : List Reference) (path : String) : Option Reference :=
  refs.reverse.find? (fun r => r.assetPath == path)

/-- The list comprehension building `reordered_refs`: left-to-right lookups
in `by_asset`, raising `KeyError` (carrying the missing path) at the first
path absent from the dict. -/
def resolveRefs (refs : List Reference) : List String → Except String (List Reference)
  | [] => .ok []
  | p :: ps =>
    match byAssetGet refs p with
    | none => .error p
    | some r => (resolveRefs refs ps).map (fun rs => r :: rs)

/-- Embedding of `UsdPrimRefEditor.save_primrefs`: reload and find the prim
spec; error if it has no reference-list operation; error if the current
prepended list is empty while `new_order` is not; resolve every path of
`new_order` against the current entries (error, carrying the first missing
path, if one is absent); assign the resolved entries to `prependedItems`;
then `self._get_layer()` — which reloads, re-synchronizing memory from disk
and so discarding the assignment just made — and `layer.Save()`. -/
def save_primrefs (e : UsdPrimRefEditor) (f : LayerFile) (new_order : List String) :
    EditResult Unit :=
  let f1 := reloadLayer f
  match f1.mem.getPrimAtPath e.prim_path with
  | none => .error (.primNotFoundError e.prim_path) f1
  | some none => .error .noReferencesError f1
  | some (some op) =>
    let original_refs := op.prependedItems
    if original_refs.isEmpty && !new_order.isEmpty then
      .error .noPrependedRefsError f1
    else
      match resolveRefs original_refs new_order with
      | .error missing => .error (.unknownReferenceError missing) f1
      | .ok reordered_refs =>
        let f2 := { f1 with mem := f1.mem.setPrependedItems e.prim_path reordered_refs }
        let f3 := reloadLayer f2
        .ok () (saveLayer f3)

/-- Embedding of `UsdaSublayerEditor.load_sublayers`: reload, then read
`layer.subLayerPaths`.  (The editor object itself only carries the file path
and the cached handle, i.e. the `LayerFile` threaded here.) -/
def load_sublayers (f : LayerFile) : List String × LayerFile :=
  let f1 := reloadLayer f
  (f1.mem.subLayerPaths, f1)

/-- Embedding of `UsdaSublayerEditor.save_sublayers`: reload, set
`layer.subLayerPaths = list(new_order)`, then `layer.Save()` (no reload
between the assignment and the save, unlike `save_primrefs`). -/
def save_sublayers (f : LayerFile) (new_order : List String) : LayerFile :=
  let f1 := reloadLayer f
  let f2 := { f1 with mem := { f1.mem with subLayerPaths := new_order } }
  saveLayer f2

/-- The asset paths of the prepended references of the prim at path `p` in
layer `l` (empty when the prim or its reference-list operation is absent):
the observation both `load_primrefs` and the claims read off a layer. -/
def prependedAssetPathsAt (l : Layer) (p : String) : List String :=
  match l.getPrimAtPath p with
  | some (some op) => op.prependedItems.map Reference.assetPath
  | _ => []

-- The prim tree view used by `get_prim_paths_with_prepended_refs` (spec §6:
-- `GetRootPrims` / `GetChildren`; a prim spec exposes its name, its optional
-- reference-list operation and its direct children; `str(spec.path)` is the
-- parent's path, a slash, and the prim's name).

/-- A prim spec as the tree walk sees it: name, optional reference-list
operation, and direct children (`nameChildren`). -/
inductive PrimSpec : Type where
  | mk : String → Option RefListOp → List PrimSpec → PrimSpec

/-- Name of a prim spec. -/
def PrimSpec.name : PrimSpec → String
  | .mk n _ _ => n

/-- Reference-list operation of a prim spec (`prim_spec.referenceList`). -/
def PrimSpec.referenceList : PrimSpec → Option RefListOp
  | .mk _ r _ => r

/-- Direct children of a prim spec (`prim_spec.nameChildren`). -/
def PrimSpec.nameChildren : PrimSpec → List PrimSpec
  | .mk _ _ cs => cs

/-- Pair each prim of `cs` with its full path, given the parent path: the
stack of the Python loop holds prim specs, each knowing its `spec.path`;
here the path is computed alongside. -/
def childEntries (path : String) (cs : List PrimSpec) : List (String × PrimSpec) :=
  cs.map (fun c => (path ++ "/" ++ c.name, c))

/-- The `while stack:` loop of `get_prim_paths_with_prepended_refs`.  The
Python list-as-stack pushes and pops at its end; it is represented here
top-first (the Lean list is the reverse of the Python list), so `pop()` is
the head, and appending the children `c1, ..., cn` in order prepends
`cn, ..., c1`, i.e. the reversed child entries.  A popped spec whose
reference-list operation exists with a non-empty prepended-items list has
its path recorded. -/
def finderLoop : List String → List (String × PrimSpec) → List String
  | result, [] => result
  | result, (path, spec) :: rest =>
    finderLoop
      (match spec.referenceList with
       | some op => if op.prependedItems.isEmpty then result else result ++ [path]
       | none => result)
      ((childEntries path spec.nameChildren).reverse ++ rest)
termination_by _ stack => (stack.map (fun e => sizeOf e.2)).sum
decreasing_by
  simp only [List.map_append, List.map_reverse, List.sum_append, List.sum_reverse,
    List.map_cons, List.sum_cons]
  have hle : ∀ l : List PrimSpec, (l.map sizeOf).sum ≤ sizeOf l := by
    intro l
    induction l with
    | nil => simp
    | cons a as ih =>
      simp
      omega
  have h1 : (spec.nameChildren.map sizeOf).sum < sizeOf spec := by
    obtain ⟨n, r, cs⟩ := spec
    have := hle cs
    simp [PrimSpec.nameChildren]
    omega
  have h2 : (List.map (fun e => sizeOf e.2) (childEntries path spec.nameChildren)).sum
      = (spec.nameChildren.map sizeOf).sum := by
    unfold childEntries
    rw [List.map_map]
    rfl
  omega

/-- Embedding of `get_prim_paths_with_prepended_refs`: open/find and reload
the layer, then run the stack traversal seeded with the root prim specs
(root prim paths are the empty parent path, a slash, and the name).  The
seed is reversed because the loop's stack is represented top-first while
`list(layer.rootPrims)` is popped from its end. -/
def get_prim_paths_with_prepended_refs (rootPrims : List PrimSpec) : List String :=
  finderLoop [] ((childEntries ("") rootPrims).reverse)

/-- The path recorded for one popped prim spec: `[path]` when its
reference-list operation exists with non-empty prepended items, else `[]`. -/
def hitOf (path : String) (s : PrimSpec) : List String :=
  match s.referenceList with
  | some op => if op.prependedItems.isEmpty then [] else [path]
  | none => []

mutual

/-- Defined after the spec's words for claim C8 (refinement comparison): the
paths of the prims in the subtree of a prim spec at `path` whose
reference-list operation exists and whose prepended-items sub-list is
non-empty. -/
def specPrimPathsWithPrependedRefs : String → PrimSpec → List String
  | path, s => hitOf path s ++ specForestPaths path s.nameChildren
termination_by _ s => sizeOf s
decreasing_by
  obtain ⟨n, r, cs⟩ := s
  simp [PrimSpec.nameChildren]

/-- Defined after the spec's words for claim C8 (refinement comparison): the
qualifying prim paths over a forest of sibling prim specs below the parent
path `path`. -/
def specForestPaths : String → List PrimSpec → List String
  | _, [] => []
  | path, c :: cs =>
    specPrimPathsWithPrependedRefs (path ++ "/" ++ c.name) c ++ specForestPaths path cs
termination_by _ l => sizeOf l
decreasing_by
  · simp
    omega
  · simp

end

-- Concrete sample data used by the evaluation theorems and witnesses.

/-- Sample reference with asset path a.usda. -/
def refA : Reference := ⟨"a.usda", "/X"⟩

/-- Sample reference with asset path b.usda. -/
def refB : Reference := ⟨"b.usda", "/Y"⟩

/-- Sample reference with asset path c.usda. -/
def refC : Reference := ⟨"c.usda", "/Z"⟩

/-- A layer whose prim /robotCharComp has prepended references
a.usda, b.usda, c.usda. -/
def abcLayer : Layer := ⟨[("/robotCharComp", some ⟨[refA, refB, refC]⟩)], []⟩

/-- The layer `abcLayer` on disk with a freshly synchronized in-memory
view. -/
def abcFile : LayerFile := ⟨abcLayer, abcLayer⟩

/-- The editor targeting /robotCharComp. -/
def abcEditor : UsdPrimRefEditor := UsdPrimRefEditor.make ("shot.usda") ("/robotCharComp")

/-- A layer whose prim /robotCharComp has prepended references
a.usda, b.usda. -/
def abLayer : Layer := ⟨[("/robotCharComp", some ⟨[refA, refB]⟩)], []⟩

/-- The layer `abLayer` on disk with a freshly synchronized in-memory
view. -/
def abFile : LayerFile := ⟨abLayer, abLayer⟩

/-- A layer whose prim /robotCharComp has a reference-list operation with an
empty prepended-items list. -/
def emptyRefsLayer : Layer := ⟨[("/robotCharComp", some ⟨[]⟩)], []⟩

/-- The layer `emptyRefsLayer` on disk with a freshly synchronized in-memory
view. -/
def emptyRefsFile : LayerFile := ⟨emptyRefsLayer, emptyRefsLayer⟩

/-- A layer whose prim /robotCharComp has no reference-list operation. -/
def noRefsLayer : Layer := ⟨[("/robotCharComp", none)], []⟩

/-- The layer `noRefsLayer` on disk with a freshly synchronized in-memory
view. -/
def noRefsFile : LayerFile := ⟨noRefsLayer, noRefsLayer⟩

-- Helper lemmas.

@[simp] theorem reloadLayer_mem (f : LayerFile) : (reloadLayer f).mem = f.disk := rfl

@[simp] theorem reloadLayer_disk (f : LayerFile) : (reloadLayer f).disk = f.disk := rfl

theorem slash_append_data (p : String) : ("/" ++ p).data = '/' :: p.data := by
  obtain ⟨d⟩ := p
  rfl

theorem startsWithSlash_slash_append (p : String) : startsWithSlash ("/" ++ p) = true := by
  simp [startsWithSlash, slash_append_data]

theorem byAssetGet_eq_none (refs : List Reference) (p : String) :
    byAssetGet refs p = none ↔ p ∉ refs.map Reference.assetPath := by
  simp only [byAssetGet, List.find?_eq_none, List.mem_reverse, List.mem_map, beq_iff_eq]
  constructor
  · rintro h ⟨x, hx, rfl⟩
    exact h x hx rfl
  · rintro h x hx rfl
    exact h ⟨x, hx, rfl⟩

theorem resolveRefs_error_of_missing (refs : List Reference) :
    ∀ l : List String, (∃ p ∈ l, byAssetGet refs p = none) →
      ∃ q ∈ l, byAssetGet refs q = none ∧ resolveRefs refs l = .error q := by
  intro l
  induction l with
  | nil => rintro ⟨p, hp, -⟩; cases hp
  | cons p ps ih =>
    rintro ⟨x, hx, hxn⟩
    cases hb : byAssetGet refs p with
    | none => exact ⟨p, List.mem_cons_self .., hb, by simp [resolveRefs, hb]⟩
    | some r =>
      have hxps : x ∈ ps := by
        rcases List.mem_cons.mp hx with rfl | h
        · rw [hb] at hxn; cases hxn
        · exact h
      obtain ⟨q, hq, hqn, hres⟩ := ih ⟨x, hxps, hxn⟩
      exact ⟨q, List.mem_cons_of_mem _ hq, hqn, by simp [resolveRefs, hb, hres, Except.map]⟩

theorem specForestPaths_eq_flatten (path : String) (cs : List PrimSpec) :
    specForestPaths path cs
      = ((childEntries path cs).map (fun e => specPrimPathsWithPrependedRefs e.1 e.2)).flatten := by
  induction cs with
  | nil => simp [specForestPaths, childEntries]
  | cons c cs ih => simp [specForestPaths, childEntries, ih]

theorem flatten_reverse_perm {α : Type} (l : List (List α)) :
    List.Perm l.reverse.flatten l.flatten := by
  induction l with
  | nil => simp
  | cons a as ih =>
    simp only [List.reverse_cons, List.flatten_append, List.flatten_cons]
    have h1 : List.Perm (as.reverse.flatten ++ [a].flatten) (as.flatten ++ a) := by
      simpa using ih.append_right a
    exact h1.trans List.perm_append_comm

theorem finderLoop_perm (result : List String) (stack : List (String × PrimSpec)) :
    List.Perm (finderLoop result stack)
      (result ++ (stack.map (fun e => specPrimPathsWithPrependedRefs e.1 e.2)).flatten) := by
  induction result, stack using finderLoop.induct with
  | case1 result => simp [finderLoop]
  | case2 result path spec rest ih =>
    rw [finderLoop]
    refine ih.trans ?_
    have hone : specPrimPathsWithPrependedRefs path spec
        = hitOf path spec
          ++ ((childEntries path spec.nameChildren).map
                (fun e => specPrimPathsWithPrependedRefs e.1 e.2)).flatten := by
      rw [specPrimPathsWithPrependedRefs, specForestPaths_eq_flatten]
    have hrev := flatten_reverse_perm ((childEntries path spec.nameChildren).map
      (fun e => specPrimPathsWithPrependedRefs e.1 e.2))
    cases h : spec.referenceList with
    | none =>
      simp only [h, hone, hitOf, List.map_append, List.map_reverse, List.flatten_append,
        List.map_cons, List.flatten_cons, List.nil_append, List.append_assoc]
      exact List.Perm.append_left _ (hrev.append_right _)
    | some op =>
      by_cases he : op.prependedItems.isEmpty = true
      · simp only [h, he, if_true, hone, hitOf, List.map_append, List.map_reverse,
          List.flatten_append, List.map_cons, List.flatten_cons, List.nil_append,
          List.append_assoc]
        exact List.Perm.append_left _ (hrev.append_right _)
      · simp only [h, he, Bool.false_eq_true, dite_false, if_false, hone, hitOf,
          List.map_append, List.map_reverse, List.flatten_append, List.map_cons,
          List.flatten_cons, List.append_assoc, List.singleton_append, List.cons_append,
          List.nil_append]
        refine List.Perm.append_left _ ?_
        simpa using (hrev.append_right _).cons path

-- Claim theorems.

/-- C1: the claim states that for a prim with prepended references
[a, b, c] (pairwise-distinct asset paths), `save_primrefs([c, a, b])`
followed by `load_primrefs()` returns exactly [c, a, b].  Evaluation at that
input shows the code does not do this: the save returns successfully but the
reload inside `_get_layer()` (called between the `prependedItems` assignment
and `Save`) discards the edit, so the file is unchanged and the subsequent
load returns the original [a, b, c]. -/
theorem c1_save_permutation_then_load_returns_original_order :
    save_primrefs abcEditor abcFile ["c.usda", "a.usda", "b.usda"] = .ok () abcFile
    ∧ load_primrefs abcEditor abcFile = .ok ["a.usda", "b.usda", "c.usda"] abcFile
    ∧ (["a.usda", "b.usda", "c.usda"] : List String) ≠ ["c.usda", "a.usda", "b.usda"] := by
  decide

/-- C2 (counterexample): the claim as stated quantifies over every call in
which some path of `new_order` is not among the current prepended asset
paths; when the current prepended list is empty, every non-empty `new_order`
is such a call, yet the code raises the earlier guard's error (message: No
prepended references found on prim), not `UnknownReferenceError`. -/
theorem c2_counterexample_empty_prepended_not_unknownReference :
    save_primrefs abcEditor emptyRefsFile ["x.usda"]
      = .error .noPrependedRefsError emptyRefsFile
    ∧ EditError.noPrependedRefsError.isUnknownReference = false := by
  decide

/-- C2 (amended): for a prim whose current prepended list is non-empty, if
some path of `new_order` is not among the current asset paths then
`save_primrefs` raises `UnknownReferenceError` naming a missing path, the
on-disk file is unmodified, the in-memory prepended list equals the original
(memory is exactly the reloaded disk state), and a subsequent
`load_primrefs` returns the original order. -/
theorem c2_unknown_path_rejected_without_write
    (e : UsdPrimRefEditor) (f : LayerFile) (op : RefListOp) (new_order : List String)
    (hop : f.disk.getPrimAtPath e.prim_path = some (some op))
    (hne : op.prependedItems ≠ [])
    (hmiss : ∃ p ∈ new_order, p ∉ op.prependedItems.map Reference.assetPath) :
    ∃ q, q ∈ new_order ∧ q ∉ op.prependedItems.map Reference.assetPath
      ∧ save_primrefs e f new_order = .error (.unknownReferenceError q) (reloadLayer f)
      ∧ (reloadLayer f).disk = f.disk
      ∧ load_primrefs e (reloadLayer f)
          = .ok (op.prependedItems.map Reference.assetPath) (reloadLayer f) := by
  obtain ⟨p, hp, hpn⟩ := hmiss
  obtain ⟨q, hq, hqn, hres⟩ :=
    resolveRefs_error_of_missing op.prependedItems new_order
      ⟨p, hp, (byAssetGet_eq_none ..).mpr hpn⟩
  refine ⟨q, hq, (byAssetGet_eq_none ..).mp hqn, ?_, rfl, ?_⟩
  · simp [save_primrefs, hop, hres, hne]
  · simp [load_primrefs, hop, reloadLayer]

/-- C2 (witness): the amended theorem applied to the prim with prepended
references [a.usda, b.usda, c.usda] and a reorder list naming zzz.usda. -/
theorem c2_unknown_path_rejected_without_write_witness :
    (abcFile.disk.getPrimAtPath abcEditor.prim_path = some (some ⟨[refA, refB, refC]⟩)
      ∧ (⟨[refA, refB, refC]⟩ : RefListOp).prependedItems ≠ []
      ∧ ∃ p ∈ ["a.usda", "zzz.usda"],
          p ∉ (⟨[refA, refB, refC]⟩ : RefListOp).prependedItems.map Reference.assetPath)
    ∧ ∃ q, q ∈ ["a.usda", "zzz.usda"]
        ∧ q ∉ (⟨[refA, refB, refC]⟩ : RefListOp).prependedItems.map Reference.assetPath
        ∧ save_primrefs abcEditor abcFile ["a.usda", "zzz.usda"]
            = .error (.unknownReferenceError q) (reloadLayer abcFile)
        ∧ (reloadLayer abcFile).disk = abcFile.disk
        ∧ load_primrefs abcEditor (reloadLayer abcFile)
            = .ok ((⟨[refA, refB, refC]⟩ : RefListOp).prependedItems.map Reference.assetPath)
                (reloadLayer abcFile) :=
  ⟨⟨by decide, by decide, by decide⟩,
    c2_unknown_path_rejected_without_write abcEditor abcFile ⟨[refA, refB, refC]⟩
      ["a.usda", "zzz.usda"] (by decide) (by decide) (by decide)⟩

/-- C3: every successful `save_primrefs` call leaves the file equal to the
reloaded original disk state, so in particular the multiset of asset paths
of the prim's prepended-reference list after the call equals the multiset
before the call (here because the successful save never changes the list at
all: the pre-save reload discards the reordering). -/
theorem c3_successful_save_preserves_asset_path_multiset
    (e : UsdPrimRefEditor) (f : LayerFile) (new_order : List String) (f' : LayerFile)
    (h : save_primrefs e f new_order = .ok () f') :
    f' = ⟨f.disk, f.disk⟩
    ∧ (↑(prependedAssetPathsAt f'.disk e.prim_path) : Multiset String)
        = ↑(prependedAssetPathsAt f.disk e.prim_path) := by
  have hf : f' = ⟨f.disk, f.disk⟩ := by
    simp only [save_primrefs, reloadLayer_mem] at h
    split at h
    · cases h
    · cases h
    · split at h
      · cases h
      · split at h
        · cases h
        · simp only [EditResult.ok.injEq, true_and] at h
          subst h
          simp [saveLayer, reloadLayer]
  subst hf
  simp

/-- C3 (witness): a successful reordering call on the prim with prepended
references [a.usda, b.usda, c.usda]. -/
theorem c3_successful_save_preserves_asset_path_multiset_witness :
    save_primrefs abcEditor abcFile ["b.usda", "a.usda", "c.usda"] = .ok () abcFile
    ∧ (abcFile = ⟨abcFile.disk, abcFile.disk⟩
        ∧ (↑(prependedAssetPathsAt abcFile.disk abcEditor.prim_path) : Multiset String)
            = ↑(prependedAssetPathsAt abcFile.disk abcEditor.prim_path)) :=
  ⟨by decide,
    c3_successful_save_preserves_asset_path_multiset abcEditor abcFile
      ["b.usda", "a.usda", "c.usda"] abcFile (by decide)⟩

/-- C4: the claim states that for `new_order` a non-empty strict subset of
the current (distinct) asset paths, `save_primrefs` succeeds and the
resulting prepended-items list consists of exactly the entries named in
`new_order` (others dropped).  Evaluation at prepended references
[a.usda, b.usda] with `new_order = [b.usda]` shows the call does succeed but
nothing is dropped: the pre-save reload discards the edit, so a subsequent
load still returns [a.usda, b.usda], not [b.usda]. -/
theorem c4_strict_subset_save_succeeds_but_drops_nothing :
    save_primrefs abcEditor abFile ["b.usda"] = .ok () abFile
    ∧ load_primrefs abcEditor abFile = .ok ["a.usda", "b.usda"] abFile
    ∧ (["a.usda", "b.usda"] : List String) ≠ ["b.usda"] := by
  decide

/-- C5: for a prim that exists in the layer but has no reference-list
operation, `load_primrefs` returns the empty sequence and raises no
error. -/
theorem c5_load_without_reflist_returns_empty
    (e : UsdPrimRefEditor) (f : LayerFile)
    (h : f.disk.getPrimAtPath e.prim_path = some none) :
    load_primrefs e f = .ok [] (reloadLayer f) := by
  simp [load_primrefs, h]

/-- C5 (witness): the theorem applied to a layer whose prim /robotCharComp
has no reference-list operation. -/
theorem c5_load_without_reflist_returns_empty_witness :
    noRefsFile.disk.getPrimAtPath abcEditor.prim_path = some none
    ∧ load_primrefs abcEditor noRefsFile = .ok [] (reloadLayer noRefsFile) :=
  ⟨by decide, c5_load_without_reflist_returns_empty abcEditor noRefsFile (by decide)⟩

/-- C6: for a prim that exists in the layer but has no reference-list
operation, `save_primrefs` raises `NoReferencesError` for every `new_order`
(the check precedes any look at `new_order`, so also for the empty
sequence), and the disk is not written. -/
theorem c6_save_without_reflist_raises_noReferencesError
    (e : UsdPrimRefEditor) (f : LayerFile)
    (h : f.disk.getPrimAtPath e.prim_path = some none) (new_order : List String) :
    save_primrefs e f new_order = .error .noReferencesError (reloadLayer f)
    ∧ (reloadLayer f).disk = f.disk := by
  constructor
  · simp [save_primrefs, h]
  · rfl

/-- C6 (witness): the theorem applied with the empty `new_order` (the edge
case the claim calls out) on a prim with no reference-list operation. -/
theorem c6_save_without_reflist_raises_noReferencesError_witness :
    noRefsFile.disk.getPrimAtPath abcEditor.prim_path = some none
    ∧ save_primrefs abcEditor noRefsFile [] = .error .noReferencesError (reloadLayer noRefsFile)
    ∧ (reloadLayer noRefsFile).disk = noRefsFile.disk :=
  ⟨by decide,
    (c6_save_without_reflist_raises_noReferencesError abcEditor noRefsFile (by decide) []).1,
    (c6_save_without_reflist_raises_noReferencesError abcEditor noRefsFile (by decide) []).2⟩

/-- C7: for every layer state and every list of strings, `save_sublayers`
replaces the root layer's sublayer-path list with exactly `new_order` — with
no membership validation against the previous contents (the statement holds
for all inputs, with no hypothesis on the previous list) — and a subsequent
`load_sublayers` returns exactly `new_order`. -/
theorem c7_sublayer_save_unchecked_roundtrip (f : LayerFile) (new_order : List String) :
    (save_sublayers f new_order).disk.subLayerPaths = new_order
    ∧ (save_sublayers f new_order).mem.subLayerPaths = new_order
    ∧ (load_sublayers (save_sublayers f new_order)).1 = new_order := by
  refine ⟨?_, ?_, ?_⟩ <;> simp [save_sublayers, load_sublayers, saveLayer, reloadLayer]

/-- C8: the list returned by `get_prim_paths_with_prepended_refs` is a
permutation of — hence equal as a set to — the paths of exactly those prims
in the whole tree whose reference-list operation exists and whose
prepended-items sub-list is non-empty (every prim is visited by the
stack-based traversal; the order is unspecified). -/
theorem c8_finder_returns_exactly_prims_with_prepended_refs (rootPrims : List PrimSpec) :
    List.Perm (get_prim_paths_with_prepended_refs rootPrims) (specForestPaths ("") rootPrims)
    ∧ (get_prim_paths_with_prepended_refs rootPrims).toFinset
        = (specForestPaths ("") rootPrims).toFinset := by
  have hp : List.Perm (get_prim_paths_with_prepended_refs rootPrims)
      (specForestPaths ("") rootPrims) := by
    rw [specForestPaths_eq_flatten]
    refine (finderLoop_perm [] ((childEntries ("") rootPrims).reverse)).trans ?_
    simpa [List.map_reverse] using
      flatten_reverse_perm ((childEntries ("") rootPrims).map
        (fun e => specPrimPathsWithPrependedRefs e.1 e.2))
  exact ⟨hp, List.toFinset_eq_of_perm _ _ hp⟩

/-- C9: constructing an editor with a prim path `p` not beginning with a
slash stores the path `"/" ++ p` and yields an editor equal (hence
behaviourally identical — both operations are functions of the editor
record) to one constructed with `"/" ++ p`; a prim path `q` already
beginning with a slash is stored unchanged. -/
theorem c9_prim_path_normalization (u p q : String)
    (hp : startsWithSlash p = false) (hq : startsWithSlash q = true) :
    (UsdPrimRefEditor.make u p).prim_path = "/" ++ p
    ∧ UsdPrimRefEditor.make u p = UsdPrimRefEditor.make u ("/" ++ p)
    ∧ (UsdPrimRefEditor.make u q).prim_path = q := by
  refine ⟨?_, ?_, ?_⟩ <;>
    simp [UsdPrimRefEditor.make, hp, hq, startsWithSlash_slash_append]

/-- C9 (witness): the theorem applied to the prim path robotCharComp with
and without the leading slash. -/
theorem c9_prim_path_normalization_witness :
    (startsWithSlash ("robotCharComp") = false
      ∧ startsWithSlash ("/robotCharComp") = true)
    ∧ ((UsdPrimRefEditor.make ("shot.usda") ("robotCharComp")).prim_path
          = "/" ++ "robotCharComp"
        ∧ UsdPrimRefEditor.make ("shot.usda") ("robotCharComp")
          = UsdPrimRefEditor.make ("shot.usda") ("/" ++ "robotCharComp")
        ∧ (UsdPrimRefEditor.make ("shot.usda") ("/robotCharComp")).prim_path
          = "/robotCharComp") :=
  ⟨⟨by decide, by decide⟩,
    c9_prim_path_normalization ("shot.usda") ("robotCharComp") ("/robotCharComp")
      (by decide) (by decide)⟩

/-- C10: for a prim whose reference-list operation exists but whose
prepended-items list is empty, `save_primrefs` raises the error with message
No prepended references found on prim — which is not the
`UnknownReferenceError` kind, being raised before any per-path lookup — for
every non-empty `new_order`, and succeeds (running the rewrite of the empty
list and the save, which leave the file unchanged) when `new_order` is
empty. -/
theorem c10_empty_prepended_guard
    (e : UsdPrimRefEditor) (f : LayerFile) (op : RefListOp) (new_order : List String)
    (hop : f.disk.getPrimAtPath e.prim_path = some (some op))
    (hempty : op.prependedItems = []) :
    (new_order ≠ [] →
        save_primrefs e f new_order = .error .noPrependedRefsError (reloadLayer f)
        ∧ EditError.noPrependedRefsError.isUnknownReference = false)
    ∧ save_primrefs e f [] = .ok () ⟨f.disk, f.disk⟩ := by
  constructor
  · intro hne
    constructor
    · simp [save_primrefs, hop, hempty, List.isEmpty_iff, hne]
    · rfl
  · simp [save_primrefs, hop, hempty, resolveRefs, reloadLayer, saveLayer]

/-- C10 (witness): the theorem applied to the prim with an empty
prepended-items list, with the non-empty reorder list [x.usda]. -/
theorem c10_empty_prepended_guard_witness :
    (emptyRefsFile.disk.getPrimAtPath abcEditor.prim_path = some (some ⟨[]⟩)
      ∧ (⟨[]⟩ : RefListOp).prependedItems = [])
    ∧ ((["x.usda"] ≠ ([] : List String) →
          save_primrefs abcEditor emptyRefsFile ["x.usda"]
            = .error .noPrependedRefsError (reloadLayer emptyRefsFile)
          ∧ EditError.noPrependedRefsError.isUnknownReference = false)
        ∧ save_primrefs abcEditor emptyRefsFile []
            = .ok () ⟨emptyRefsFile.disk, emptyRefsFile.disk⟩) :=
  ⟨⟨by decide, by decide⟩,
    c10_empty_prepended_guard abcEditor emptyRefsFile ⟨[]⟩ ["x.usda"]
      (by decide) (by decide)⟩
